import Mathlib

/-!
Verification of `src/visualizer/matrix_visualizer.rs` (my-alife).

The field-to-texture conversion `make_texture_image` works on `f32`
samples.  We embed the samples as exact rationals extended with a NaN
value: the only arithmetic the code performs on a sample is one
multiplication by `255.0` and the comparisons `< 0.0` / `> 1.0`, so the
rational model tracks the code exactly (f32 rounding of the single
product is not modelled).  Rust's `as u8` cast is a saturating cast:
NaN goes to 0, the value is truncated toward zero and clamped to
`[0, 255]`.
-/

/-- An `f32` sample: either NaN or a finite value, modelled as an exact
rational. -/
inductive F32 where
  | nan : F32
  | fin : ℚ → F32
deriving DecidableEq

/-- Rust `<` on `f32`: every comparison involving NaN is false. -/
def F32.lt : F32 → F32 → Bool
  | F32.fin a, F32.fin b => decide (a < b)
  | _, _ => false

/-- Rust `>` on `f32`: every comparison involving NaN is false. -/
def F32.gt : F32 → F32 → Bool
  | F32.fin a, F32.fin b => decide (b < a)
  | _, _ => false

/-- Rust `*` on `f32` (exact on the finite part; NaN propagates). -/
def F32.mul : F32 → F32 → F32
  | F32.fin a, F32.fin b => F32.fin (a * b)
  | _, _ => F32.nan

/-- Rust `as u8` on an `f32`: NaN goes to 0, otherwise truncate toward
zero and saturate to `[0, 255]`.  For the clamp at 0, truncation toward
zero and flooring agree after saturation, so the floor form is used. -/
def F32.asU8 : F32 → Nat
  | F32.nan => 0
  | F32.fin q => min 255 (Int.toNat q.floor)

/-- The branch
`if *e < 0.0 { 0.0 } else if *e > 1.0 { 1.0 } else { *e }`
of `make_texture_image` (matrix_visualizer.rs lines 176-182). -/
def clampBranch (e : F32) : F32 :=
  if F32.lt e (F32.fin 0) then F32.fin 0
  else if F32.gt e (F32.fin 1) then F32.fin 1
  else e

/-- The whole per-sample conversion of `make_texture_image`:
`(clampBranch e * 255.0) as u8` (matrix_visualizer.rs lines 176-182). -/
def convSample (e : F32) : Nat :=
  F32.asU8 (F32.mul (clampBranch e) (F32.fin 255))

/-- glium's `RawImage2d` as far as the claims need it: the raw byte
data and the dimensions passed to `from_raw_rgba`. -/
structure RawImage2d where
  data : List Nat
  width : Nat
  height : Nat
deriving DecidableEq

/-- glium's `RawImage2d::from_raw_rgba(data, dimensions)`: wraps the
byte vector with the given dimensions. -/
def from_raw_rgba (data : List Nat) (dim : Nat × Nat) : RawImage2d :=
  { data := data, width := dim.1, height := dim.2 }

/-- `make_texture_image` (matrix_visualizer.rs lines 172-191): iterate
the rows (`outer_iter` of the `Matrix<f32>`, embedded as its list of
rows in row-major order), then each sample in the row, push the
converted byte four times (R, G, B, A), and wrap the buffer as a
256×256 RGBA image. -/
def make_texture_image (u : List (List F32)) : RawImage2d :=
  from_raw_rgba
    (u.flatMap fun row => row.flatMap fun e =>
      [convSample e, convSample e, convSample e, convSample e])
    (256, 256)

lemma ratFloor_eq_intFloor (q : ℚ) : q.floor = ⌊q⌋ :=
  (Rat.floor_def' q).trans Rat.floor_def.symm

/-- Closed form of the per-sample conversion on finite samples. -/
lemma convSample_fin (q : ℚ) :
    convSample (F32.fin q) =
      if q < 0 then 0 else if 1 < q then 255 else min 255 (Int.toNat ⌊q * 255⌋) := by
  by_cases h1 : q < 0
  · simp [convSample, clampBranch, F32.lt, F32.gt, F32.mul, F32.asU8, h1,
      ratFloor_eq_intFloor]
  · by_cases h2 : 1 < q
    · simp [convSample, clampBranch, F32.lt, F32.gt, F32.mul, F32.asU8, h1, h2,
        ratFloor_eq_intFloor]
    · simp [convSample, clampBranch, F32.lt, F32.gt, F32.mul, F32.asU8, h1, h2,
        ratFloor_eq_intFloor]

lemma convSample_zero : convSample (F32.fin 0) = 0 := by
  rw [convSample_fin]; norm_num

lemma convSample_one : convSample (F32.fin 1) = 255 := by
  rw [convSample_fin]; norm_num

lemma convSample_half : convSample (F32.fin (1/2)) = 127 := by
  have hf : ⌊(1/2 : ℚ) * 255⌋ = 127 := by
    rw [Int.floor_eq_iff]
    norm_num
  rw [convSample_fin]
  norm_num [hf]
  decide

example : convSample F32.nan = 0 := rfl
example : (make_texture_image [[F32.fin 0]]).width = 256 := rfl
example : (make_texture_image [[F32.fin (1/2), F32.fin 1]]).data.length = 8 := rfl

/-- The per-cell converted bytes, one per field cell, in iteration
order (rows first, then columns). -/
def pixelBytes (u : List (List F32)) : List Nat :=
  u.flatMap fun row => row.map convSample

/-- Quadruplicate every byte (the four `texture_data.push(v)` calls). -/
def quadBytes (l : List Nat) : List Nat :=
  l.flatMap fun v => [v, v, v, v]

lemma quadBytes_nil : quadBytes [] = [] := rfl

lemma quadBytes_cons (v : Nat) (l : List Nat) :
    quadBytes (v :: l) = v :: v :: v :: v :: quadBytes l := rfl

lemma quadBytes_append (l m : List Nat) :
    quadBytes (l ++ m) = quadBytes l ++ quadBytes m := by
  simp [quadBytes]

lemma row_flatMap_eq_quadBytes (r : List F32) :
    (r.flatMap fun e =>
        [convSample e, convSample e, convSample e, convSample e]) =
      quadBytes (r.map convSample) := by
  induction r with
  | nil => rfl
  | cons e t ih => simp [quadBytes_cons, ih]

/-- The data of the produced image is the quadruplication of the
per-cell bytes. -/
lemma make_texture_image_data (u : List (List F32)) :
    (make_texture_image u).data = quadBytes (pixelBytes u) := by
  induction u with
  | nil => rfl
  | cons r t ih =>
    simp only [make_texture_image, from_raw_rgba, pixelBytes, List.flatMap_cons] at *
    rw [row_flatMap_eq_quadBytes, ih, quadBytes_append]

lemma quadBytes_length (l : List Nat) :
    (quadBytes l).length = 4 * l.length := by
  induction l with
  | nil => rfl
  | cons v t ih => simp [quadBytes_cons, ih]; omega

lemma pixelBytes_length (u : List (List F32)) (w : Nat)
    (hw : ∀ row ∈ u, row.length = w) :
    (pixelBytes u).length = w * u.length := by
  induction u with
  | nil => simp [pixelBytes]
  | cons r t ih =>
    have hr : r.length = w := hw r (by simp)
    have ht : ∀ row ∈ t, row.length = w := fun row h => hw row (by simp [h])
    simp [pixelBytes] at ih ⊢
    rw [hr, ih ht]
    ring

lemma quadBytes_getElem? (l : List Nat) (i k : Nat) (hk : k < 4) :
    (quadBytes l)[4 * i + k]? = l[i]? := by
  induction l generalizing i with
  | nil => simp [quadBytes_nil]
  | cons v t ih =>
    cases i with
    | zero =>
      simp only [Nat.mul_zero, Nat.zero_add, quadBytes_cons]
      interval_cases k <;> simp
    | succ i =>
      have hidx : 4 * (i + 1) + k = (4 * i + k) + 1 + 1 + 1 + 1 := by omega
      rw [hidx, quadBytes_cons]
      simp only [List.getElem?_cons_succ]
      exact ih i

lemma pixelBytes_getElem? (u : List (List F32)) (w i j : Nat)
    (hw : ∀ row ∈ u, row.length = w) (hi : i < u.length) (hj : j < w) :
    (pixelBytes u)[i * w + j]? =
      some (convSample ((u.getD i []).getD j F32.nan)) := by
  induction u generalizing i with
  | nil => simp at hi
  | cons r t ih =>
    have hr : r.length = w := hw r (by simp)
    have ht : ∀ row ∈ t, row.length = w := fun row h => hw row (by simp [h])
    cases i with
    | zero =>
      have hjr : j < r.length := hr ▸ hj
      simp only [pixelBytes, List.flatMap_cons, Nat.zero_mul, Nat.zero_add,
        List.getD_cons_zero]
      rw [List.getElem?_append]
      simp only [List.length_map, hr, hj, if_pos]
      simp [List.getElem?_eq_getElem hjr, List.getD_eq_getElem?_getD,
        List.getElem?_eq_getElem]
    | succ i =>
      have hit : i < t.length := by simpa using hi
      have hidx : (i + 1) * w + j = r.length + (i * w + j) := by
        rw [hr]; ring
      simp only [pixelBytes, List.flatMap_cons, List.getD_cons_succ]
      rw [hidx, List.getElem?_append]
      simp only [List.length_map]
      rw [if_neg (by omega)]
      have : r.length + (i * w + j) - r.length = i * w + j := by omega
      rw [this]
      exact ih i ht hit

/-!
The render loop of `MatrixVisualizer::draw` (matrix_visualizer.rs lines
125-157).  Each iteration: call `update_fn`, build the texture image,
create the GPU texture (`Texture2d::new(..).unwrap()` — a creation
failure panics), clear, draw (`?`), finish (`?`), then poll events and
set `closed` when a `CloseRequested` window event is seen.  The loop
checks `closed` at the top and breaks, returning `Ok(())`.

The environment of one iteration (which GPU calls succeed, which events
the poll delivers) is an `IterInput`; the loop consumes a list of them.
`drawLoop` returns `none` when the supplied list is exhausted while the
loop is still running (the real loop would keep iterating), otherwise
the outcome together with the number of fully presented frames.
-/

/-- A window/input event as the poll closure sees it: a
`WindowEvent::CloseRequested`, or anything else. -/
inductive WinEvent where
  | closeRequested : WinEvent
  | other : WinEvent
deriving DecidableEq

/-- The environment of one loop iteration. -/
structure IterInput where
  textureOk : Bool
  drawOk : Bool
  finishOk : Bool
  events : List WinEvent
deriving DecidableEq

/-- How `draw` ends: normal return `Ok(())`, an error returned with
`?`, or a panic from an `unwrap()`. -/
inductive LoopOutcome where
  | ok : LoopOutcome
  | err : LoopOutcome
  | panic : LoopOutcome
deriving DecidableEq

/-- The event-poll closure (matrix_visualizer.rs lines 148-154): fold
the pending events over `closed`, setting it on `CloseRequested`. -/
def pollClosed (closed : Bool) (events : List WinEvent) : Bool :=
  events.foldl
    (fun c e => match e with
      | WinEvent.closeRequested => true
      | WinEvent.other => c)
    closed

/-- The loop of `draw` (matrix_visualizer.rs lines 129-156).  Returns
the outcome and the number of frames presented, or `none` if the
iteration inputs run out while still `Running`. -/
def drawLoop (closed : Bool) : List IterInput → Option (LoopOutcome × Nat)
  | [] => if closed then some (LoopOutcome.ok, 0) else none
  | it :: rest =>
    if closed then some (LoopOutcome.ok, 0)
    else if it.textureOk = false then some (LoopOutcome.panic, 0)
    else if it.drawOk = false then some (LoopOutcome.err, 0)
    else if it.finishOk = false then some (LoopOutcome.err, 0)
    else (drawLoop (pollClosed closed it.events) rest).map
      fun r => (r.1, r.2 + 1)

/-- An iteration whose GPU calls all succeed. -/
def allOk (it : IterInput) : Prop :=
  it.textureOk = true ∧ it.drawOk = true ∧ it.finishOk = true

instance (it : IterInput) : Decidable (allOk it) := by
  unfold allOk; infer_instance

/-- A poll cycle that observes a close request. -/
def hasClose (events : List WinEvent) : Prop :=
  WinEvent.closeRequested ∈ events

instance (events : List WinEvent) : Decidable (hasClose events) := by
  unfold hasClose; infer_instance

lemma pollClosed_eq (events : List WinEvent) :
    ∀ c, pollClosed c events =
      (c || events.any fun e => e = WinEvent.closeRequested) := by
  induction events with
  | nil => intro c; simp [pollClosed]
  | cons e t ih =>
    intro c
    cases e with
    | closeRequested =>
      simp only [pollClosed, List.foldl_cons] at *
      rw [ih true]
      simp
    | other =>
      simp only [pollClosed, List.foldl_cons] at *
      rw [ih c]
      simp

lemma pollClosed_of_hasClose {events : List WinEvent}
    (h : hasClose events) (c : Bool) : pollClosed c events = true := by
  rw [pollClosed_eq]
  simp only [Bool.or_eq_true, List.any_eq_true]
  exact Or.inr ⟨WinEvent.closeRequested, h, by simp⟩

lemma pollClosed_of_not_hasClose {events : List WinEvent}
    (h : ¬ hasClose events) : pollClosed false events = false := by
  rw [pollClosed_eq]
  simp only [Bool.false_or, List.any_eq_false]
  intro e he
  simp only [decide_eq_true_eq]
  intro hc
  subst hc
  exact h he

lemma drawLoop_closed (iters : List IterInput) :
    drawLoop true iters = some (LoopOutcome.ok, 0) := by
  cases iters <;> simp [drawLoop]

lemma drawLoop_ok_step (it : IterInput) (rest : List IterInput)
    (hok : allOk it) (hnc : ¬ hasClose it.events) :
    drawLoop false (it :: rest) =
      (drawLoop false rest).map fun r => (r.1, r.2 + 1) := by
  obtain ⟨h1, h2, h3⟩ := hok
  simp only [drawLoop, h1, h2, h3, if_neg]
  simp [pollClosed_of_not_hasClose hnc]

lemma drawLoop_close_step (it : IterInput) (rest : List IterInput)
    (hok : allOk it) (hc : hasClose it.events) :
    drawLoop false (it :: rest) = some (LoopOutcome.ok, 1) := by
  obtain ⟨h1, h2, h3⟩ := hok
  simp only [drawLoop, h1, h2, h3]
  simp [pollClosed_of_hasClose hc, drawLoop_closed]

/-!
Construction: `MatrixVisualizer::new` (matrix_visualizer.rs lines
35-61) and `MatrixVisualizer::glsl` (lines 63-67).

`glsl` opens the file at the given path and reads it to a string; any
I/O failure propagates with `?`.  The filesystem is embedded as a map
from paths to `Option` contents; `none` means the open/read fails.
`new` creates the events loop and display, reads the vertex shader
source (`?`), reads the fragment shader source (`?`), compiles the
program (`?`), and only then allocates the vertex buffer
(`VertexBuffer::new(..).unwrap()`).  The order of these effects is
recorded in a trace.
-/

/-- The error kinds the spec names for construction. -/
inductive VisError where
  | resourceReadError : VisError
  | shaderCompileError : VisError
deriving DecidableEq

/-- Observable construction effects, in program order. -/
inductive NewEffect where
  | createDisplay : NewEffect
  | readFile : String → NewEffect
  | compileProgram : NewEffect
  | allocVertexBuffer : NewEffect
deriving DecidableEq

/-- The environment `new` runs against: the readable files and whether
the shader pair compiles/links. -/
structure NewEnv where
  fileContents : String → Option String
  compileOk : String → String → Bool

/-- The constructed handle, as far as the claims need it: the two
shader sources the program was built from. -/
structure MatrixVisualizer where
  vertexSource : String
  fragmentSource : String
deriving DecidableEq

/-- `MatrixVisualizer::glsl` (matrix_visualizer.rs lines 63-67): read
the whole file, or fail with the I/O error (surfaced to the caller of
`new` as a resource read error). -/
def MatrixVisualizer.glsl (env : NewEnv) (path : String) :
    Except VisError String :=
  match env.fileContents path with
  | some contents => Except.ok contents
  | none => Except.error VisError.resourceReadError

/-- `MatrixVisualizer::new` (matrix_visualizer.rs lines 35-61),
with its effect trace.  Mirrors the source order: display creation,
`glsl(vertex_glsl_path)?`, `glsl(faragment_glsl_path)?`,
`Program::from_source(..)?`, then `VertexBuffer::new(..)`. -/
def MatrixVisualizer.new (env : NewEnv) (vpath fpath : String) :
    Except VisError MatrixVisualizer × List NewEffect :=
  match MatrixVisualizer.glsl env vpath with
  | Except.error e => (Except.error e, [NewEffect.createDisplay, NewEffect.readFile vpath])
  | Except.ok vsrc =>
    match MatrixVisualizer.glsl env fpath with
    | Except.error e =>
      (Except.error e,
        [NewEffect.createDisplay, NewEffect.readFile vpath, NewEffect.readFile fpath])
    | Except.ok fsrc =>
      if env.compileOk vsrc fsrc then
        (Except.ok { vertexSource := vsrc, fragmentSource := fsrc },
          [NewEffect.createDisplay, NewEffect.readFile vpath, NewEffect.readFile fpath,
            NewEffect.compileProgram, NewEffect.allocVertexBuffer])
      else
        (Except.error VisError.shaderCompileError,
          [NewEffect.createDisplay, NewEffect.readFile vpath, NewEffect.readFile fpath,
            NewEffect.compileProgram])

/-!
The claims.
-/

/-- C1: for every sample `e`, the conversion clamps to `[0, 1]`, scales
by 255 and truncates: the byte is 0 for `e ≤ 0`, 255 for `e ≥ 1`, the
truncation of `e * 255` for `e` in `(0, 1)`, and in particular 127 for
`e = 0.5`. -/
theorem C1_sample_clamp_scale_truncate (q : ℚ) :
    (q ≤ 0 → convSample (F32.fin q) = 0) ∧
    (1 ≤ q → convSample (F32.fin q) = 255) ∧
    (0 < q → q < 1 → convSample (F32.fin q) = Int.toNat ⌊q * 255⌋) ∧
    convSample (F32.fin (1/2)) = 127 := by
  refine ⟨?_, ?_, ?_, convSample_half⟩
  · intro h
    rw [convSample_fin]
    rcases lt_or_eq_of_le h with h' | h'
    · rw [if_pos h']
    · subst h'
      norm_num
  · intro h
    rw [convSample_fin, if_neg (by linarith)]
    by_cases h2 : 1 < q
    · rw [if_pos h2]
    · have hq : q = 1 := le_antisymm (not_lt.1 h2) h
      subst hq
      norm_num
  · intro h0 h1
    rw [convSample_fin, if_neg (by linarith), if_neg (by linarith)]
    have hlt : ⌊q * 255⌋ < 255 := Int.floor_lt.mpr (by push_cast; nlinarith)
    have hle : Int.toNat ⌊q * 255⌋ ≤ 255 := by omega
    exact min_eq_right hle

/-- Witness for C1 at the concrete sample `e = 1/2`. -/
theorem C1_sample_clamp_scale_truncate_witness :
    (0:ℚ) < 1/2 ∧ (1/2:ℚ) < 1 ∧
      convSample (F32.fin (1/2)) = Int.toNat ⌊(1/2:ℚ) * 255⌋ :=
  ⟨by norm_num, by norm_num,
    (C1_sample_clamp_scale_truncate (1/2)).2.2.1 (by norm_num) (by norm_num)⟩

/-- C2 counterexample: for the 1×1 field `[[0.0]]` the produced texture
image is 256×256, not 1×1, so the uploaded texture is not sized to the
field's declared dimensions. -/
theorem C2_counterexample_fixed_256 :
    (make_texture_image [[F32.fin 0]]).width = 256 ∧
    (make_texture_image [[F32.fin 0]]).height = 256 ∧
    ¬ ((make_texture_image [[F32.fin 0]]).width = 1 ∧
       (make_texture_image [[F32.fin 0]]).height = 1) := by
  refine ⟨rfl, rfl, fun h => ?_⟩
  have h256 : (256 : Nat) = 1 := h.1
  omega

/-- C2 (amended): in every render-loop iteration the uploaded texture
image is sized 256×256, regardless of the dimensions of the field
returned by the update function. -/
theorem C2_texture_always_256 (u : List (List F32)) :
    (make_texture_image u).width = 256 ∧ (make_texture_image u).height = 256 :=
  ⟨rfl, rfl⟩

/-- C3 counterexample: for the 1-row 2-column field `[[0.0, 0.0]]` the
buffer length is `4 * 2 * 1` as claimed, but the texture image's pixel
count is 256·256 = 65536, not the field's cell count 2. -/
theorem C3_counterexample_pixel_count :
    (make_texture_image [[F32.fin 0, F32.fin 0]]).data.length = 4 * 2 * 1 ∧
    ¬ ((make_texture_image [[F32.fin 0, F32.fin 0]]).width *
        (make_texture_image [[F32.fin 0, F32.fin 0]]).height = 2 * 1) := by
  refine ⟨rfl, fun h => ?_⟩
  have h65536 : (65536 : Nat) = 2 * 1 := h
  omega

/-- C3 (amended): for every `w × h` field the byte buffer has length
exactly `4 * w * h`, while the pixel count of the resulting texture
image is always 256·256 (equal to the field's cell count only when
`w * h = 65536`). -/
theorem C3_buffer_length (u : List (List F32)) (w h : Nat)
    (hw : ∀ row ∈ u, row.length = w) (hh : u.length = h) :
    (make_texture_image u).data.length = 4 * w * h ∧
    (make_texture_image u).width * (make_texture_image u).height = 256 * 256 := by
  refine ⟨?_, rfl⟩
  rw [make_texture_image_data, quadBytes_length, pixelBytes_length u w hw, hh]
  ring

/-- Witness for C3 (amended) on the 1×2 field `[[0.0], [1.0]]`. -/
theorem C3_buffer_length_witness :
    (make_texture_image [[F32.fin 0], [F32.fin 1]]).data.length = 4 * 1 * 2 ∧
    (make_texture_image [[F32.fin 0], [F32.fin 1]]).width *
      (make_texture_image [[F32.fin 0], [F32.fin 1]]).height = 256 * 256 :=
  C3_buffer_length [[F32.fin 0], [F32.fin 1]] 1 2 (by simp) rfl

/-- C4: every pixel of the conversion output has its four channel
bytes equal (R = G = B = A): positions `4i`, `4i+1`, `4i+2`, `4i+3` of
the buffer always hold the same byte. -/
theorem C4_grayscale_channels (u : List (List F32)) (i : Nat) :
    (make_texture_image u).data[4 * i]? = (make_texture_image u).data[4 * i + 1]? ∧
    (make_texture_image u).data[4 * i]? = (make_texture_image u).data[4 * i + 2]? ∧
    (make_texture_image u).data[4 * i]? = (make_texture_image u).data[4 * i + 3]? := by
  rw [make_texture_image_data]
  have h0 := quadBytes_getElem? (pixelBytes u) i 0 (by omega)
  have h1 := quadBytes_getElem? (pixelBytes u) i 1 (by omega)
  have h2 := quadBytes_getElem? (pixelBytes u) i 2 (by omega)
  have h3 := quadBytes_getElem? (pixelBytes u) i 3 (by omega)
  rw [Nat.add_zero] at h0
  exact ⟨h0.trans h1.symm, h0.trans h2.symm, h0.trans h3.symm⟩

/-- C5: the conversion preserves row-major order: for a rectangular
field of row length `w`, the sample at row `i`, column `j` determines
the four output bytes at buffer offsets `4*(i*w+j) .. 4*(i*w+j)+3`. -/
theorem C5_row_major_order (u : List (List F32)) (w i j k : Nat)
    (hw : ∀ row ∈ u, row.length = w) (hi : i < u.length) (hj : j < w)
    (hk : k < 4) :
    (make_texture_image u).data[4 * (i * w + j) + k]? =
      some (convSample ((u.getD i []).getD j F32.nan)) := by
  rw [make_texture_image_data, quadBytes_getElem? _ _ _ hk,
    pixelBytes_getElem? u w i j hw hi hj]

/-- Witness for C5 on a concrete 2×2 field, at row 1, column 0,
channel 2. -/
theorem C5_row_major_order_witness :
    (make_texture_image
        [[F32.fin 0, F32.fin 1], [F32.fin (1/2), F32.fin 0]]).data[4 * (1 * 2 + 0) + 2]? =
      some (convSample
        (([[F32.fin 0, F32.fin 1], [F32.fin (1/2), F32.fin 0]].getD 1 []).getD 0 F32.nan)) :=
  C5_row_major_order [[F32.fin 0, F32.fin 1], [F32.fin (1/2), F32.fin 0]] 2 1 0 2
    (by simp) (by simp) (by omega) (by omega)

/-- C6: a NaN sample fails both the `< 0.0` and the `> 1.0` comparison,
falls through to the unclamped else branch, and its output byte is the
`f32`-to-`u8` conversion of `NaN * 255.0`. -/
theorem C6_nan_falls_through :
    F32.lt F32.nan (F32.fin 0) = false ∧
    F32.gt F32.nan (F32.fin 1) = false ∧
    clampBranch F32.nan = F32.nan ∧
    convSample F32.nan = F32.asU8 (F32.mul F32.nan (F32.fin 255)) :=
  ⟨rfl, rfl, rfl, rfl⟩

/-- C7: if a close request is observed during the event poll of some
iteration (and every iteration up to it succeeds), the loop exits at
the top of the next iteration: exactly the frames up to and including
that iteration are drawn, none of the remaining inputs are consumed,
and `draw` returns success. -/
theorem C7_close_terminates_loop (pre : List IterInput) (it : IterInput)
    (rest : List IterInput)
    (hpre : ∀ i ∈ pre, allOk i ∧ ¬ hasClose i.events)
    (hit : allOk it) (hclose : hasClose it.events) :
    drawLoop false (pre ++ it :: rest) = some (LoopOutcome.ok, pre.length + 1) := by
  induction pre with
  | nil => simpa using drawLoop_close_step it rest hit hclose
  | cons p t ih =>
    have hp := hpre p (by simp)
    have ht : ∀ i ∈ t, allOk i ∧ ¬ hasClose i.events := fun i h =>
      hpre i (by simp [h])
    rw [List.cons_append, drawLoop_ok_step p _ hp.1 hp.2, ih ht]
    simp

/-- Witness for C7: a single successful iteration whose poll sees a
close request; the loop returns `Ok` having drawn exactly one frame. -/
theorem C7_close_terminates_loop_witness :
    drawLoop false
      [{ textureOk := true, drawOk := true, finishOk := true,
         events := [WinEvent.closeRequested] }] = some (LoopOutcome.ok, 1) :=
  C7_close_terminates_loop []
    { textureOk := true, drawOk := true, finishOk := true,
      events := [WinEvent.closeRequested] }
    [] (by simp) ⟨rfl, rfl, rfl⟩ (by simp [hasClose])

/-- C8: if either shader source path is unreadable, construction
returns a resource read error and the vertex buffer is never
allocated; whenever the vertex buffer is allocated, both shader reads
and the program compilation occur strictly before it. -/
theorem C8_unreadable_shader_no_alloc (env : NewEnv) (vpath fpath : String) :
    (env.fileContents vpath = none ∨ env.fileContents fpath = none →
      (MatrixVisualizer.new env vpath fpath).1 =
          Except.error VisError.resourceReadError ∧
        NewEffect.allocVertexBuffer ∉ (MatrixVisualizer.new env vpath fpath).2) ∧
    (NewEffect.allocVertexBuffer ∈ (MatrixVisualizer.new env vpath fpath).2 →
      (MatrixVisualizer.new env vpath fpath).2 =
        [NewEffect.createDisplay, NewEffect.readFile vpath,
          NewEffect.readFile fpath, NewEffect.compileProgram,
          NewEffect.allocVertexBuffer]) := by
  rcases hv : env.fileContents vpath with _ | vsrc
  · constructor
    · intro _
      constructor
      · simp [MatrixVisualizer.new, MatrixVisualizer.glsl, hv]
      · simp [MatrixVisualizer.new, MatrixVisualizer.glsl, hv]
    · intro hmem
      simp [MatrixVisualizer.new, MatrixVisualizer.glsl, hv] at hmem
  · rcases hf : env.fileContents fpath with _ | fsrc
    · constructor
      · intro _
        constructor
        · simp [MatrixVisualizer.new, MatrixVisualizer.glsl, hv, hf]
        · simp [MatrixVisualizer.new, MatrixVisualizer.glsl, hv, hf]
      · intro hmem
        simp [MatrixVisualizer.new, MatrixVisualizer.glsl, hv, hf] at hmem
    · constructor
      · intro h
        rcases h with h | h
        · exact absurd h (by simp)
        · exact absurd h (by simp)
      · intro hmem
        by_cases hc : env.compileOk vsrc fsrc
        · simp [MatrixVisualizer.new, MatrixVisualizer.glsl, hv, hf, hc]
        · simp [MatrixVisualizer.new, MatrixVisualizer.glsl, hv, hf, hc] at hmem

/-- An environment in which no file is readable. -/
def noFiles : NewEnv :=
  { fileContents := fun _ => none, compileOk := fun _ _ => true }

/-- Witness for C8: with no readable files, construction fails with a
resource read error and never allocates the vertex buffer. -/
theorem C8_unreadable_shader_no_alloc_witness :
    (MatrixVisualizer.new noFiles "vertex.glsl" "fragment.glsl").1 =
        Except.error VisError.resourceReadError ∧
      NewEffect.allocVertexBuffer ∉
        (MatrixVisualizer.new noFiles "vertex.glsl" "fragment.glsl").2 :=
  (C8_unreadable_shader_no_alloc noFiles "vertex.glsl" "fragment.glsl").1
    (Or.inl rfl)

/-- C9 counterexample: an iteration whose texture creation fails makes
the loop end in a panic (`unwrap`), not in an error returned to the
caller. -/
theorem C9_counterexample_texture_panics :
    drawLoop false
        [{ textureOk := false, drawOk := true, finishOk := true, events := [] }] =
      some (LoopOutcome.panic, 0) ∧
    LoopOutcome.panic ≠ LoopOutcome.err :=
  ⟨rfl, by decide⟩

/-- C9 (amended): every loop-time failure aborts the render loop
immediately, with no retry and no further iterations; draw and
present/finish failures propagate to the caller as a returned error,
while a texture-creation failure aborts by panicking (`unwrap`), not
by returning an error. -/
theorem C9_loop_error_aborts (pre : List IterInput) (it : IterInput)
    (rest : List IterInput)
    (hpre : ∀ i ∈ pre, allOk i ∧ ¬ hasClose i.events) :
    (it.textureOk = false →
      drawLoop false (pre ++ it :: rest) = some (LoopOutcome.panic, pre.length)) ∧
    (it.textureOk = true → it.drawOk = false →
      drawLoop false (pre ++ it :: rest) = some (LoopOutcome.err, pre.length)) ∧
    (it.textureOk = true → it.drawOk = true → it.finishOk = false →
      drawLoop false (pre ++ it :: rest) = some (LoopOutcome.err, pre.length)) := by
  induction pre with
  | nil =>
    refine ⟨fun h1 => ?_, fun h1 h2 => ?_, fun h1 h2 h3 => ?_⟩
    · simp [drawLoop, h1]
    · simp [drawLoop, h1, h2]
    · simp [drawLoop, h1, h2, h3]
  | cons p t ih =>
    have hp := hpre p (by simp)
    have ht : ∀ i ∈ t, allOk i ∧ ¬ hasClose i.events := fun i h =>
      hpre i (by simp [h])
    have ihh := ih ht
    refine ⟨fun h1 => ?_, fun h1 h2 => ?_, fun h1 h2 h3 => ?_⟩
    · rw [List.cons_append, drawLoop_ok_step p _ hp.1 hp.2, ihh.1 h1]
      simp
    · rw [List.cons_append, drawLoop_ok_step p _ hp.1 hp.2, ihh.2.1 h1 h2]
      simp
    · rw [List.cons_append, drawLoop_ok_step p _ hp.1 hp.2, ihh.2.2 h1 h2 h3]
      simp

/-- Witness for C9 (amended): a first-iteration draw failure returns an
error with zero presented frames. -/
theorem C9_loop_error_aborts_witness :
    drawLoop false
        [{ textureOk := true, drawOk := false, finishOk := true, events := [] }] =
      some (LoopOutcome.err, 0) :=
  (C9_loop_error_aborts []
      { textureOk := true, drawOk := false, finishOk := true, events := [] }
      [] (by simp)).2.1 rfl rfl

/-- C10: the per-sample conversion is monotone on non-NaN samples:
`a ≤ b` implies the byte for `a` is at most the byte for `b`. -/
theorem C10_conversion_monotone (a b : ℚ) (hab : a ≤ b) :
    convSample (F32.fin a) ≤ convSample (F32.fin b) := by
  rw [convSample_fin, convSample_fin]
  by_cases ha0 : a < 0
  · rw [if_pos ha0]
    exact Nat.zero_le _
  · have hb0 : ¬ b < 0 := fun h => ha0 (lt_of_le_of_lt hab h)
    rw [if_neg ha0, if_neg hb0]
    by_cases ha1 : 1 < a
    · have hb1 : 1 < b := lt_of_lt_of_le ha1 hab
      rw [if_pos ha1, if_pos hb1]
    · rw [if_neg ha1]
      by_cases hb1 : 1 < b
      · rw [if_pos hb1]
        exact min_le_left _ _
      · rw [if_neg hb1]
        refine min_le_min le_rfl ?_
        exact Int.toNat_le_toNat
          (Int.floor_le_floor (mul_le_mul_of_nonneg_right hab (by norm_num)))

/-- Witness for C10 at the pair `a = 0 ≤ b = 1`. -/
theorem C10_conversion_monotone_witness :
    (0:ℚ) ≤ 1 ∧ convSample (F32.fin 0) ≤ convSample (F32.fin 1) :=
  ⟨by norm_num, C10_conversion_monotone 0 1 (by norm_num)⟩
